import Mathlib

/-!
Verification development for the organization-management service.

The Python source is shallowly embedded: Mongo documents become Lean
structures, the master database becomes an explicit `DBState`, and each
service method (`create_organization`, `update_organization`,
`delete_organization`) becomes a pure function returning the new state,
the list of store operations it performed (in order), and either a result
or the `ValueError` it raised.  The HTTP layer's validation (pydantic
schemas) and its ValueError-to-status-code mapping are embedded as well.
Strings are modelled over their character lists; Python's `str.lower` is
modelled on ASCII.
-/

/-- Model of Python's `str.lower` on a single character (ASCII range;
the organization-name validator only ever feeds ASCII word characters
through it). -/
def lowerChar (c : Char) : Char :=
  match c with
  | 'A' => 'a' | 'B' => 'b' | 'C' => 'c' | 'D' => 'd' | 'E' => 'e'
  | 'F' => 'f' | 'G' => 'g' | 'H' => 'h' | 'I' => 'i' | 'J' => 'j'
  | 'K' => 'k' | 'L' => 'l' | 'M' => 'm' | 'N' => 'n' | 'O' => 'o'
  | 'P' => 'p' | 'Q' => 'q' | 'R' => 'r' | 'S' => 's' | 'T' => 't'
  | 'U' => 'u' | 'V' => 'v' | 'W' => 'w' | 'X' => 'x' | 'Y' => 'y'
  | 'Z' => 'z'
  | c => c

/-- Model of Python's `str.lower`. -/
def pyLower (s : String) : String :=
  ⟨s.data.map lowerChar⟩

/-- Model of Python's `str.replace(' ', '_')` (single-character pattern). -/
def pyReplaceSpace (s : String) : String :=
  ⟨s.data.map (fun c => if c = ' ' then '_' else c)⟩

/-- `prefCheck p l` checks that `p` is a list prefix of `l`
(model of the prefix test used by substring search). -/
def prefCheck : List Char → List Char → Bool
  | [], _ => true
  | _ :: _, [] => false
  | a :: as, b :: bs => a == b && prefCheck as bs

/-- Substring search: does `p` occur contiguously in `l`? -/
def subSearch (p : List Char) : List Char → Bool
  | [] => p.isEmpty
  | c :: cs => prefCheck p (c :: cs) || subSearch p cs

/-- Model of Python's `pat in s` for strings. -/
def containsSub (pat s : String) : Bool :=
  subSearch pat.data s.data

/-- ASCII letter test `[a-zA-Z]`. -/
def isAsciiLetterCh (c : Char) : Bool :=
  ('A' ≤ c && c ≤ 'Z') || ('a' ≤ c && c ≤ 'z')

/-- Word character test `[a-zA-Z0-9_]`. -/
def isWordCh (c : Char) : Bool :=
  isAsciiLetterCh c || ('0' ≤ c && c ≤ '9') || c == '_'

/-- Core of the identifier grammar: a leading letter followed by word
characters (the language of `[a-zA-Z][a-zA-Z0-9_]*` as a full match). -/
def identCore : List Char → Bool
  | [] => false
  | c :: cs => isAsciiLetterCh c && cs.all isWordCh

/-- Model of Python's `re.match(r'^[a-zA-Z][a-zA-Z0-9_]*$', v) is not None`.
Python's `$` also matches just before a newline at the very end of the
string, so a single trailing `'\n'` is accepted. -/
def orgNameGrammar (v : String) : Bool :=
  identCore v.data ||
    (v.data.getLast? == some '\n' && identCore v.data.dropLast)

/-- The identifier grammar exactly as the specification words it: the name
must start with a letter and contain only alphanumerics and underscores.
Used to compare the spec's grammar with the code's regex behavior. -/
def specIdentGrammar (v : String) : Bool :=
  identCore v.data

/-- Pydantic `Field(min_length=3, max_length=50)` on a string. -/
def nameLenOk (v : String) : Bool :=
  3 ≤ v.length && v.length ≤ 50

/-- Password strength validator of `OrganizationCreate` (ASCII model of
`isupper`/`islower`/`isdigit`) together with `Field(min_length=8)`. -/
def passwordValid (p : String) : Bool :=
  8 ≤ p.length &&
  p.data.any (fun c => 'A' ≤ c && c ≤ 'Z') &&
  p.data.any (fun c => 'a' ≤ c && c ≤ 'z') &&
  p.data.any (fun c => '0' ≤ c && c ≤ '9')

/-- Coarse model of pydantic's `EmailStr` (external validator): the
address must contain an `'@'`.  No claim depends on its exact grammar. -/
def emailValid (e : String) : Bool :=
  e.data.contains '@'

/-- An `organizations` document of the master database. -/
structure OrgDoc where
  oid : Nat
  name : String
  collection_name : String
  admin_id : Option Nat
  admin_email : Option String
  created_at : Nat
  updated_at : Option Nat
  is_active : Bool
deriving DecidableEq

/-- An `admin_users` document of the master database. -/
structure AdminDoc where
  aid : Nat
  email : String
  password_hash : String
  organization_id : Nat
  organization_name : String
  role : String
  created_at : Nat
  is_active : Bool
deriving DecidableEq

/-- The master database plus the set of physical tenant collections.
`nextId` models the ObjectId generator, `now` the clock
(`datetime.utcnow`). -/
structure DBState where
  organizations : List OrgDoc
  admin_users : List AdminDoc
  collections : List String
  nextId : Nat
  now : Nat
deriving DecidableEq

/-- The empty registry the service starts from. -/
def initialState : DBState :=
  { organizations := [], admin_users := [], collections := [],
    nextId := 0, now := 0 }

/-- One store operation performed by a service call, in program order. -/
inductive DbEvent where
  | insertOrg (oid : Nat)
  | insertAdmin (aid : Nat)
  | patchOrg (oid : Nat)
  | patchAdmin (aid : Nat)
  | createCollection (name : String)
  | renameCollection (oldName newName : String)
  | dropCollection (name : String)
  | deleteAdmins (orgId : Nat)
  | deleteOrg (oid : Nat)
deriving DecidableEq

/-- The `ValueError`s raised by the service layer, one constructor per
raise site, carrying the interpolated parts of the Python message. -/
inductive SvcError where
  | notFound (name : String)
  | unauthorized
  | orgExists (name : String)
  | adminExists (email : String)
  | emailInUse (email : String)
  | internal
deriving DecidableEq

/-- The exact `ValueError` message text built at each raise site. -/
def errMessage : SvcError → String
  | .notFound name => "Organization '" ++ name ++ "' not found"
  | .unauthorized => "Unauthorized: Admin does not belong to this organization"
  | .orgExists name => "Organization '" ++ name ++ "' already exists"
  | .adminExists email => "Admin with email '" ++ email ++ "' already exists"
  | .emailInUse email => "Email '" ++ email ++ "' is already in use"
  | .internal => "internal error"

/-- The `PUT /org/update` route's mapping from a `ValueError` message to
an HTTP status: substring dispatch on the lower-cased message. -/
def updateErrorStatus (e : SvcError) : Nat :=
  if containsSub "not found" (pyLower (errMessage e)) then 404
  else if containsSub "unauthorized" (pyLower (errMessage e)) then 403
  else 409

/-- The `DELETE /org/delete` route's mapping from a `ValueError` message
to an HTTP status. -/
def deleteErrorStatus (e : SvcError) : Nat :=
  if containsSub "not found" (pyLower (errMessage e)) then 404
  else if containsSub "unauthorized" (pyLower (errMessage e)) then 403
  else 400

/-- The request body of `POST /org/create` before validation. -/
structure OrganizationCreate where
  organization_name : String
  email : String
  password : String
deriving DecidableEq

/-- The request body of `PUT /org/update` before validation. -/
structure OrganizationUpdate where
  organization_name : String
  email : Option String
  password : Option String
deriving DecidableEq

/-- The organization view the service returns on success. -/
structure OrgResponse where
  id : Nat
  name : String
  collection_name : String
  admin_email : String
  created_at : Nat
  updated_at : Option Nat
deriving DecidableEq

/-- Mongo `update_one`: apply `f` to the first element satisfying `p`. -/
def update_one {α : Type} (p : α → Bool) (f : α → α) : List α → List α
  | [] => []
  | x :: xs => if p x then f x :: xs else x :: update_one p f xs

/-- `OrganizationService._generate_collection_name`. -/
def generateCollectionName (org_name : String) : String :=
  "org_" ++ pyReplaceSpace (pyLower org_name)

/-- Opaque model of `SecurityService.get_password_hash` (the bcrypt
hasher is an external collaborator; no claim depends on its output). -/
def get_password_hash (password : String) : String :=
  "bcrypt$" ++ password

/-- The organization document inserted by `create_organization`
(before the admin back-reference patch). -/
def newOrgDoc (s : DBState) (data : OrganizationCreate) : OrgDoc :=
  { oid := s.nextId, name := data.organization_name,
    collection_name := generateCollectionName data.organization_name,
    admin_id := none, admin_email := none, created_at := s.now,
    updated_at := none, is_active := true }

/-- The admin document inserted by `create_organization`. -/
def newAdminDoc (s : DBState) (data : OrganizationCreate) : AdminDoc :=
  { aid := s.nextId + 1, email := data.email,
    password_hash := get_password_hash data.password,
    organization_id := s.nextId,
    organization_name := data.organization_name, role := "admin",
    created_at := s.now, is_active := true }

/-- The state after a successful `create_organization`: organization
insert, admin insert, admin back-reference patch and collection
provisioning, with two ObjectIds consumed. -/
def createdState (s : DBState) (data : OrganizationCreate) : DBState :=
  { organizations :=
      update_one (fun o => o.oid == s.nextId)
        (fun o => { o with admin_id := some (s.nextId + 1),
                           admin_email := some data.email })
        (s.organizations ++ [newOrgDoc s data]),
    admin_users := s.admin_users ++ [newAdminDoc s data],
    collections :=
      s.collections ++ [generateCollectionName data.organization_name],
    nextId := s.nextId + 2,
    now := s.now }

/-- `OrganizationService.create_organization`: existence pre-checks,
then organization insert, admin insert, admin back-reference patch and
collection provisioning, in source order. -/
def create_organization (s : DBState) (data : OrganizationCreate) :
    DBState × List DbEvent × Except SvcError OrgResponse :=
  match s.organizations.find? (fun o => o.name == data.organization_name) with
  | some _ => (s, [], .error (.orgExists data.organization_name))
  | none =>
    match s.admin_users.find? (fun a => a.email == data.email) with
    | some _ => (s, [], .error (.adminExists data.email))
    | none =>
      (createdState s data,
       [.insertOrg s.nextId, .insertAdmin (s.nextId + 1), .patchOrg s.nextId,
        .createCollection (generateCollectionName data.organization_name)],
       .ok { id := s.nextId, name := data.organization_name,
             collection_name := generateCollectionName data.organization_name,
             admin_email := data.email,
             created_at := s.now, updated_at := none })

/-- The `$set` applied to the target organization record by
`update_organization` (name, `updated_at`, and the collection name when
it changed). -/
def orgPatch (data : OrganizationUpdate) (now : Nat) (old_cn new_cn : String) :
    OrgDoc → OrgDoc :=
  fun o =>
    { o with name := data.organization_name, updated_at := some now,
             collection_name := if old_cn = new_cn then o.collection_name
                                else new_cn }

/-- The `$set` applied to the admin record by `update_organization`
(denormalized organization name, plus email / password hash if given). -/
def adminPatch (data : OrganizationUpdate) : AdminDoc → AdminDoc :=
  fun a =>
    { a with organization_name := data.organization_name,
             email := match data.email with
                      | some e => e
                      | none => a.email,
             password_hash := match data.password with
                              | some p => get_password_hash p
                              | none => a.password_hash }

/-- Final re-fetch of the updated organization and construction of the
returned view (`updated_org.get("admin_email", data.email or
admin["email"])`). -/
def finishUpdate (s : DBState) (evs : List DbEvent) (data : OrganizationUpdate)
    (admin : AdminDoc) (current_org : OrgDoc) :
    DBState × List DbEvent × Except SvcError OrgResponse :=
  match s.organizations.find? (fun o => o.oid == current_org.oid) with
  | some updated_org =>
    (s, evs, .ok { id := updated_org.oid, name := updated_org.name,
                   collection_name := updated_org.collection_name,
                   admin_email :=
                     updated_org.admin_email.getD
                       (data.email.getD admin.email),
                   created_at := updated_org.created_at,
                   updated_at := updated_org.updated_at })
  | none => (s, evs, .error .internal)

/-- The collection rename performed by `DatabaseManager.rename_collection`
when the collection identifier changed (a no-op when it did not). -/
def renamedState (s : DBState) (old_cn new_cn : String) : DBState :=
  if old_cn = new_cn then s
  else { s with collections :=
          s.collections.map (fun c => if c = old_cn then new_cn else c) }

/-- The organization registry patch of `update_organization`. -/
def orgPatchedState (s : DBState) (data : OrganizationUpdate) (now : Nat)
    (tid : Nat) (old_cn new_cn : String) : DBState :=
  { s with organizations := (update_one (fun o => o.oid == tid)
      (orgPatch data now old_cn new_cn) s.organizations) }

/-- The admin registry patch of `update_organization`. -/
def adminPatchedState (s : DBState) (data : OrganizationUpdate)
    (admin_id : Nat) : DBState :=
  { s with admin_users := (update_one (fun a => a.aid == admin_id)
      (adminPatch data) s.admin_users) }

/-- The denormalized-admin-email patch of `update_organization`. -/
def emailPatchedState (s : DBState) (e : String) (tid : Nat) : DBState :=
  { s with organizations := (update_one (fun o => o.oid == tid)
      (fun o => { o with admin_email := some e }) s.organizations) }

/-- The mutation phase of `update_organization`, entered once the target
organization is found, the admin is authorized and the new name is known
not to collide: collection rename (if the collection identifier
changed), organization patch, email-uniqueness check, admin patch and
denormalized-email patch, in source order.  The email-uniqueness failure
is raised after the organization patch has already been written, exactly
as in the source. -/
def updateApply (s : DBState) (data : OrganizationUpdate) (admin_id : Nat)
    (current_org : OrgDoc) (admin : AdminDoc) :
    DBState × List DbEvent × Except SvcError OrgResponse :=
  let old_cn := current_org.collection_name
  let new_cn := generateCollectionName data.organization_name
  let s2 := orgPatchedState (renamedState s old_cn new_cn) data s.now
              current_org.oid old_cn new_cn
  let ev2 : List DbEvent :=
    (if old_cn = new_cn then [] else [.renameCollection old_cn new_cn]) ++
      [.patchOrg current_org.oid]
  match data.email with
  | some e =>
    if (s2.admin_users.find?
          (fun a => a.email == e && !(a.aid == admin_id))).isSome then
      (s2, ev2, .error (.emailInUse e))
    else
      finishUpdate
        (emailPatchedState (adminPatchedState s2 data admin_id) e
          current_org.oid)
        (ev2 ++ [.patchAdmin admin_id, .patchOrg current_org.oid])
        data admin current_org
  | none =>
    finishUpdate (adminPatchedState s2 data admin_id)
      (ev2 ++ [.patchAdmin admin_id]) data admin current_org

/-- `OrganizationService.update_organization`: lookup by lower-cased
current name, authorization against the admin's `organization_id`,
rename-collision pre-check, then the mutation phase. -/
def update_organization (s : DBState) (current_org_name : String)
    (data : OrganizationUpdate) (admin_id : Nat) :
    DBState × List DbEvent × Except SvcError OrgResponse :=
  match s.organizations.find? (fun o => o.name == pyLower current_org_name) with
  | none => (s, [], .error (.notFound current_org_name))
  | some current_org =>
    match s.admin_users.find? (fun a => a.aid == admin_id) with
    | none => (s, [], .error .unauthorized)
    | some admin =>
      if admin.organization_id ≠ current_org.oid then
        (s, [], .error .unauthorized)
      else if pyLower data.organization_name ≠ pyLower current_org_name ∧
              (s.organizations.find?
                (fun o => o.name == pyLower data.organization_name)).isSome then
        (s, [], .error (.orgExists data.organization_name))
      else
        updateApply s data admin_id current_org admin

/-- `OrganizationService.delete_organization`: lookup, authorization,
then collection drop, bulk admin delete and organization delete. -/
def delete_organization (s : DBState) (org_name : String) (admin_id : Nat) :
    DBState × List DbEvent × Except SvcError Bool :=
  match s.organizations.find? (fun o => o.name == pyLower org_name) with
  | none => (s, [], .error (.notFound org_name))
  | some organization =>
    match s.admin_users.find? (fun a => a.aid == admin_id) with
    | none => (s, [], .error .unauthorized)
    | some admin =>
      if admin.organization_id ≠ organization.oid then
        (s, [], .error .unauthorized)
      else
        let colls1 :=
          s.collections.filter (fun c => !(c == organization.collection_name))
        let s1 := { s with collections := colls1 }
        let admins2 :=
          s1.admin_users.filter
            (fun a => !(a.organization_id == organization.oid))
        let s2 := { s1 with admin_users := admins2 }
        let orgs3 :=
          s2.organizations.eraseP (fun o => o.oid == organization.oid)
        let s3 := { s2 with organizations := orgs3 }
        (s3,
         [.dropCollection organization.collection_name,
          .deleteAdmins organization.oid, .deleteOrg organization.oid],
         .ok true)

/-- Pydantic validation of `OrganizationCreate`: length bounds and the
identifier regex on the name (the validator returns the lower-cased
name), `EmailStr` on the email, and the password-strength validator. -/
def validateOrganizationCreate (raw : OrganizationCreate) :
    Option OrganizationCreate :=
  if nameLenOk raw.organization_name && orgNameGrammar raw.organization_name &&
     emailValid raw.email && passwordValid raw.password then
    some { raw with organization_name := pyLower raw.organization_name }
  else
    none

/-- Pydantic validation of `OrganizationUpdate`: the same name validator,
optional `EmailStr`, optional password with `min_length=8` (no strength
validator on update). -/
def validateOrganizationUpdate (raw : OrganizationUpdate) :
    Option OrganizationUpdate :=
  if nameLenOk raw.organization_name && orgNameGrammar raw.organization_name &&
     (match raw.email with
      | some e => emailValid e
      | none => true) &&
     (match raw.password with
      | some p => 8 ≤ p.length
      | none => true) then
    some { raw with organization_name := pyLower raw.organization_name }
  else
    none

/-- `POST /org/create`: FastAPI validates the body (422 on failure
before any handler code runs), then the route maps any service
`ValueError` to 409. -/
def createEndpoint (s : DBState) (raw : OrganizationCreate) :
    DBState × List DbEvent × Except Nat OrgResponse :=
  match validateOrganizationCreate raw with
  | none => (s, [], .error 422)
  | some data =>
    match create_organization s data with
    | (s', evs, .ok resp) => (s', evs, .ok resp)
    | (s', evs, .error _) => (s', evs, .error 409)

/-- `PUT /org/update`: query-parameter length validation, body
validation, then the route's substring dispatch on the `ValueError`
message. -/
def updateEndpoint (s : DBState) (current_org_name : String)
    (raw : OrganizationUpdate) (admin_id : Nat) :
    DBState × List DbEvent × Except Nat OrgResponse :=
  if !(nameLenOk current_org_name) then (s, [], .error 422)
  else
    match validateOrganizationUpdate raw with
    | none => (s, [], .error 422)
    | some data =>
      match update_organization s current_org_name data admin_id with
      | (s', evs, .ok resp) => (s', evs, .ok resp)
      | (s', evs, .error e) => (s', evs, .error (updateErrorStatus e))

/-- `DELETE /org/delete`: query-parameter length validation, then the
route's substring dispatch on the `ValueError` message. -/
def deleteEndpoint (s : DBState) (organization_name : String)
    (admin_id : Nat) : DBState × List DbEvent × Except Nat Bool :=
  if !(nameLenOk organization_name) then (s, [], .error 422)
  else
    match delete_organization s organization_name admin_id with
    | (s', evs, .ok r) => (s', evs, .ok r)
    | (s', evs, .error e) => (s', evs, .error (deleteErrorStatus e))

/-- The registry states reachable from the empty registry by any
sequence of Create and Update requests through the HTTP endpoints
(successful or not — a failed update may still have committed a prefix
of its writes, which the embedding records faithfully).  The clock may
move arbitrarily between requests. -/
inductive Reachable : DBState → Prop
  | base : Reachable initialState
  | create (s : DBState) (raw : OrganizationCreate) (t : Nat) :
      Reachable s → Reachable (createEndpoint { s with now := t } raw).1
  | update (s : DBState) (cn : String) (raw : OrganizationUpdate)
      (aid : Nat) (t : Nat) :
      Reachable s → Reachable (updateEndpoint { s with now := t } cn raw aid).1

/-- The inductive invariant of the registry: every stored organization
name is lower-case-normalized and space-free, its collection name is the
deterministic image of its name, ids are below the generator, and names
and ids are pairwise distinct. -/
def RegInv (s : DBState) : Prop :=
  (∀ o ∈ s.organizations,
     pyLower o.name = o.name ∧ (∀ c ∈ o.name.data, c ≠ ' ') ∧
     o.collection_name = generateCollectionName o.name ∧ o.oid < s.nextId) ∧
  (s.organizations.map (fun o => o.name)).Pairwise (· ≠ ·) ∧
  (s.organizations.map (fun o => o.oid)).Pairwise (· ≠ ·)

/-- The payload signed into a JWT: the application claims plus the `exp`
registered claim that `create_access_token` appends.  Claims are modelled
as a string-to-string dictionary (the service only signs string-valued
claims). -/
structure JwtPayload where
  claims : List (String × String)
  exp : Nat
deriving DecidableEq

/-- Modelled from the spec: a signed token of the external `jose`
library, specified at its interface boundary (§4.1).  The signature is an
idealized MAC — it is valid exactly when it equals the pair of the server
secret and the signed payload, so any change to the payload that keeps
the signature, or to the signature that keeps the payload, is detected. -/
structure JwtToken where
  payload : JwtPayload
  sig : String × JwtPayload
deriving DecidableEq

/-- Modelled from the spec: `jose.jwt.encode` — signs the payload with
the server secret. -/
def jwt_encode (payload : JwtPayload) (secret : String) : JwtToken :=
  { payload := payload, sig := (secret, payload) }

/-- Modelled from the spec: `jose.jwt.decode` — verifies the signature
and rejects an expired token (`jose` raises when `exp < now`). -/
def jwt_decode (t : JwtToken) (secret : String) (now : Nat) :
    Option JwtPayload :=
  if t.sig = (secret, t.payload) ∧ ¬(t.payload.exp < now) then
    some t.payload
  else
    none

/-- `settings.secret_key`. -/
def secretKey : String := "your-super-secret-key-change-in-production"

/-- `settings.access_token_expire_minutes`, in the abstract time unit of
the model. -/
def accessTokenExpireMinutes : Nat := 30

/-- `SecurityService.create_access_token`: append `exp = now + ttl`
(falling back to the configured expiry) and sign with the server
secret. -/
def create_access_token (data : List (String × String))
    (expires_delta : Option Nat) (now : Nat) : JwtToken :=
  let expire := match expires_delta with
                | some d => now + d
                | none => now + accessTokenExpireMinutes
  jwt_encode { claims := data, exp := expire } secretKey

/-- `SecurityService.decode_token`: decode and validate, mapping any
`JWTError` to an HTTP 401. -/
def decode_token (t : JwtToken) (now : Nat) : Except Nat JwtPayload :=
  match jwt_decode t secretKey now with
  | some payload => .ok payload
  | none => .error 401

/-- Create request used by the concrete scenario states. -/
def rawAcme : OrganizationCreate :=
  { organization_name := "Acme", email := "a@x.com", password := "Secret123" }

/-- Second create request used by the concrete scenario states. -/
def rawBrix : OrganizationCreate :=
  { organization_name := "brix", email := "b@x.com", password := "Secret123" }

/-- Registry after creating organization `"acme"` from the empty state. -/
def stateAcme : DBState :=
  (createEndpoint { initialState with now := 0 } rawAcme).1

/-- Registry after creating `"acme"` and then `"brix"`. -/
def stateAcmeBrix : DBState :=
  (createEndpoint { stateAcme with now := 1 } rawBrix).1

/-- Update request renaming an organization to `"brix"`. -/
def updBrix : OrganizationUpdate :=
  { organization_name := "brix", email := none, password := none }

/-- Create request whose name has a trailing newline: it violates the
spec's identifier grammar but passes the code's regex validation. -/
def rawNewline : OrganizationCreate :=
  { organization_name := "abc\n", email := "a@x.com",
    password := "Secret123" }

/-- Create request with the invalid identifier from the spec scenario. -/
def rawBadName : OrganizationCreate :=
  { organization_name := "123bad", email := "a@x.com",
    password := "Secret123" }

/-- A name is normalized when lower-casing fixes it and it contains no
space (the shape every stored organization name has). -/
def NormName (n : String) : Prop :=
  pyLower n = n ∧ ∀ c ∈ n.data, c ≠ ' '

theorem lowerChar_cases (c : Char) :
    lowerChar c = 'a' ∨ lowerChar c = 'b' ∨ lowerChar c = 'c' ∨
    lowerChar c = 'd' ∨ lowerChar c = 'e' ∨ lowerChar c = 'f' ∨
    lowerChar c = 'g' ∨ lowerChar c = 'h' ∨ lowerChar c = 'i' ∨
    lowerChar c = 'j' ∨ lowerChar c = 'k' ∨ lowerChar c = 'l' ∨
    lowerChar c = 'm' ∨ lowerChar c = 'n' ∨ lowerChar c = 'o' ∨
    lowerChar c = 'p' ∨ lowerChar c = 'q' ∨ lowerChar c = 'r' ∨
    lowerChar c = 's' ∨ lowerChar c = 't' ∨ lowerChar c = 'u' ∨
    lowerChar c = 'v' ∨ lowerChar c = 'w' ∨ lowerChar c = 'x' ∨
    lowerChar c = 'y' ∨ lowerChar c = 'z' ∨ lowerChar c = c := by
  unfold lowerChar
  split <;> simp

theorem lowerChar_idem (c : Char) : lowerChar (lowerChar c) = lowerChar c := by
  rcases lowerChar_cases c with h|h|h|h|h|h|h|h|h|h|h|h|h|h|h|h|h|h|h|h|h|h|h|h|h|h|h <;>
    rw [h] <;> first | decide | exact h

theorem lowerChar_space {c : Char} (h : c ≠ ' ') : lowerChar c ≠ ' ' := by
  unfold lowerChar
  split <;> simp_all

theorem pyLower_pyLower (v : String) : pyLower (pyLower v) = pyLower v := by
  unfold pyLower
  simp only [List.map_map]
  have h : lowerChar ∘ lowerChar = lowerChar := funext lowerChar_idem
  rw [h]

theorem pyLower_no_space {v : String} (h : ∀ c ∈ v.data, c ≠ ' ') :
    ∀ c ∈ (pyLower v).data, c ≠ ' ' := by
  intro c hc
  unfold pyLower at hc
  simp only [List.mem_map] at hc
  obtain ⟨c', hc', rfl⟩ := hc
  exact lowerChar_space (h c' hc')

theorem wordCh_ne_space {c : Char} (h : isWordCh c = true) : c ≠ ' ' := by
  intro hc
  subst hc
  exact absurd h (by decide)

theorem letterCh_ne_space {c : Char} (h : isAsciiLetterCh c = true) :
    c ≠ ' ' := by
  intro hc
  subst hc
  exact absurd h (by decide)

theorem identCore_no_space {l : List Char} (h : identCore l = true) :
    ∀ c ∈ l, c ≠ ' ' := by
  cases l with
  | nil => simp [identCore] at h
  | cons a as =>
    simp only [identCore, Bool.and_eq_true, List.all_eq_true] at h
    intro c hc
    rcases List.mem_cons.mp hc with rfl | hmem
    · exact letterCh_ne_space h.1
    · exact wordCh_ne_space (h.2 c hmem)

theorem grammar_no_space {v : String} (h : orgNameGrammar v = true) :
    ∀ c ∈ v.data, c ≠ ' ' := by
  unfold orgNameGrammar at h
  rcases Bool.or_eq_true_iff.mp h with hcore | htail
  · exact identCore_no_space hcore
  · simp only [Bool.and_eq_true, beq_iff_eq] at htail
    obtain ⟨hlast, hcore⟩ := htail
    have hne : v.data ≠ [] := by
      intro he
      rw [he] at hlast
      simp at hlast
    intro c hc
    rw [← List.dropLast_append_getLast hne] at hc
    rcases List.mem_append.mp hc with hd | hl
    · exact identCore_no_space hcore c hd
    · have hceq : c = v.data.getLast hne := by simpa using hl
      have hsome : some (v.data.getLast hne) = some '\n' := by
        rw [← List.getLast?_eq_getLast _ hne]
        exact hlast
      rw [hceq, Option.some.inj hsome]
      decide

theorem normName_of_grammar {v : String} (h : orgNameGrammar v = true) :
    NormName (pyLower v) :=
  ⟨pyLower_pyLower v, pyLower_no_space (grammar_no_space h)⟩

theorem string_eta (s : String) : String.mk s.data = s := rfl

theorem string_data_inj {a b : String} (h : a.data = b.data) : a = b := by
  cases a
  cases b
  exact congrArg String.mk h

theorem gen_of_norm {n : String} (h : NormName n) :
    generateCollectionName n = "org_" ++ n := by
  unfold generateCollectionName
  rw [h.1]
  unfold pyReplaceSpace
  have hmap : n.data.map (fun c => if c = ' ' then '_' else c) =
      n.data.map id :=
    List.map_congr_left (fun c hc => by rw [if_neg (h.2 c hc)]; rfl)
  rw [hmap, List.map_id, string_eta]

theorem gen_inj {a b : String} (ha : NormName a) (hb : NormName b)
    (h : generateCollectionName a = generateCollectionName b) : a = b := by
  rw [gen_of_norm ha, gen_of_norm hb] at h
  have hd := congrArg String.data h
  simp only [String.data_append] at hd
  exact string_data_inj (List.append_cancel_left hd)

theorem mem_update_one {α : Type} {p : α → Bool} {f : α → α} {l : List α}
    {y : α} (h : y ∈ update_one p f l) :
    y ∈ l ∨ ∃ x, x ∈ l ∧ p x = true ∧ y = f x := by
  induction l with
  | nil => simp [update_one] at h
  | cons a as ih =>
    by_cases hp : p a
    · simp only [update_one, if_pos hp] at h
      rcases List.mem_cons.mp h with rfl | hmem
      · exact Or.inr ⟨a, List.mem_cons_self a as, hp, rfl⟩
      · exact Or.inl (List.mem_cons_of_mem a hmem)
    · simp only [update_one, if_neg hp] at h
      rcases List.mem_cons.mp h with rfl | hmem
      · exact Or.inl (List.mem_cons_self y as)
      · rcases ih hmem with h1 | ⟨x, hx, hpx, rfl⟩
        · exact Or.inl (List.mem_cons_of_mem a h1)
        · exact Or.inr ⟨x, List.mem_cons_of_mem a hx, hpx, rfl⟩

theorem length_update_one {α : Type} (p : α → Bool) (f : α → α)
    (l : List α) : (update_one p f l).length = l.length := by
  induction l with
  | nil => rfl
  | cons a as ih =>
    by_cases hp : p a
    · simp [update_one, if_pos hp]
    · simp [update_one, if_neg hp, ih]

theorem update_one_eq_map {l : List OrgDoc} {tid : Nat} {f : OrgDoc → OrgDoc}
    (hoid : (l.map (fun o => o.oid)).Pairwise (· ≠ ·)) :
    update_one (fun o => o.oid == tid) f l =
      l.map (fun o => if o.oid = tid then f o else o) := by
  induction l with
  | nil => rfl
  | cons a as ih =>
    simp only [List.map_cons, List.pairwise_cons] at hoid
    by_cases hp : a.oid = tid
    · simp only [update_one, List.map_cons, if_pos (beq_iff_eq.mpr hp), if_pos hp]
      have : ∀ o ∈ as, (if o.oid = tid then f o else o) = o := by
        intro o ho
        have : a.oid ≠ o.oid := hoid.1 o.oid (List.mem_map_of_mem _ ho)
        rw [if_neg (by rw [← hp]; exact fun he => this he.symm)]
      rw [List.map_congr_left this]
      simp
    · have hb : ((fun o => o.oid == tid) a) = false := by
        simp [hp]
      simp only [update_one, List.map_cons, hb, if_neg hp, Bool.false_eq_true,
        if_false]
      rw [ih hoid.2]

theorem map_field_map {α β : Type} {l : List α} {g : α → α} {h : α → β}
    (hp : ∀ x, h (g x) = h x) : (l.map g).map h = l.map h := by
  rw [List.map_map]
  exact List.map_congr_left (fun a _ => hp a)

theorem prefCheck_self (p : List Char) : prefCheck p p = true := by
  induction p with
  | nil => rfl
  | cons a as ih => simp [prefCheck, ih]

theorem subSearch_append (t p : List Char) : subSearch p (t ++ p) = true := by
  induction t with
  | nil =>
    cases p with
    | nil => rfl
    | cons a as => simp [subSearch, prefCheck_self]
  | cons a t' ih => simp [subSearch, ih]

theorem containsSub_notFound (nm : String) :
    containsSub "not found" (pyLower (errMessage (.notFound nm))) = true := by
  unfold containsSub errMessage pyLower
  simp only [String.data_append, List.map_append]
  have h1 : List.map lowerChar ("' not found".data) =
      ("' ".data) ++ ("not found".data) := by decide
  rw [h1, ← List.append_assoc]
  exact subSearch_append _ _

theorem updateErrorStatus_notFound (nm : String) :
    updateErrorStatus (.notFound nm) = 404 := by
  unfold updateErrorStatus
  rw [if_pos (containsSub_notFound nm)]

theorem deleteErrorStatus_notFound (nm : String) :
    deleteErrorStatus (.notFound nm) = 404 := by
  unfold deleteErrorStatus
  rw [if_pos (containsSub_notFound nm)]

theorem updateErrorStatus_unauthorized :
    updateErrorStatus .unauthorized = 403 := by decide

theorem deleteErrorStatus_unauthorized :
    deleteErrorStatus .unauthorized = 403 := by decide

theorem validateCreate_some {raw data : OrganizationCreate}
    (h : validateOrganizationCreate raw = some data) :
    data.organization_name = pyLower raw.organization_name ∧
    orgNameGrammar raw.organization_name = true := by
  unfold validateOrganizationCreate at h
  split at h
  next hcond =>
    simp only [Bool.and_eq_true] at hcond
    injection h with h
    subst h
    exact ⟨rfl, hcond.1.1.2⟩
  next => exact absurd h (by simp)

theorem validateUpdate_some {raw data : OrganizationUpdate}
    (h : validateOrganizationUpdate raw = some data) :
    data.organization_name = pyLower raw.organization_name ∧
    orgNameGrammar raw.organization_name = true := by
  unfold validateOrganizationUpdate at h
  split at h
  next hcond =>
    simp only [Bool.and_eq_true] at hcond
    injection h with h
    subst h
    exact ⟨rfl, hcond.1.1.2⟩
  next => exact absurd h (by simp)

theorem map_update_one {α β : Type} {p : α → Bool} {f : α → α} {g : α → β}
    {l : List α} (hp : ∀ x, g (f x) = g x) :
    (update_one p f l).map g = l.map g := by
  induction l with
  | nil => rfl
  | cons a as ih =>
    by_cases hc : p a
    · simp [update_one, if_pos hc, hp]
    · simp [update_one, if_neg hc, ih]

theorem renamedState_organizations (s : DBState) (a b : String) :
    (renamedState s a b).organizations = s.organizations := by
  unfold renamedState
  split <;> rfl

theorem renamedState_nextId (s : DBState) (a b : String) :
    (renamedState s a b).nextId = s.nextId := by
  unfold renamedState
  split <;> rfl

theorem finishUpdate_state (s : DBState) (evs : List DbEvent)
    (data : OrganizationUpdate) (admin : AdminDoc) (current_org : OrgDoc) :
    (finishUpdate s evs data admin current_org).1 = s := by
  unfold finishUpdate
  split <;> rfl

theorem regInv_iff_of_eq {s t : DBState} (ho : s.organizations = t.organizations)
    (hn : s.nextId = t.nextId) : RegInv s ↔ RegInv t := by
  unfold RegInv
  rw [ho, hn]

theorem regInv_update_one_pres {s : DBState} {p : OrgDoc → Bool}
    {f : OrgDoc → OrgDoc}
    (hname : ∀ x, (f x).name = x.name)
    (hcn : ∀ x, (f x).collection_name = x.collection_name)
    (hoid : ∀ x, (f x).oid = x.oid)
    (hinv : RegInv s) :
    RegInv { s with organizations := (update_one p f s.organizations) } := by
  obtain ⟨hprops, hnames, hoids⟩ := hinv
  refine ⟨?_, ?_, ?_⟩
  · intro o ho
    rcases mem_update_one ho with hmem | ⟨x, hx, _, rfl⟩
    · exact hprops o hmem
    · obtain ⟨h1, h2, h3, h4⟩ := hprops x hx
      exact ⟨by rw [hname]; exact h1, by rw [hname]; exact h2,
             by rw [hname, hcn]; exact h3, by rw [hoid]; exact h4⟩
  · show ((update_one p f s.organizations).map (fun o => o.name)).Pairwise _
    rw [map_update_one hname]
    exact hnames
  · show ((update_one p f s.organizations).map (fun o => o.oid)).Pairwise _
    rw [map_update_one hoid]
    exact hoids

theorem regInv_emailPatched {s : DBState} {e : String} {tid : Nat}
    (hinv : RegInv s) : RegInv (emailPatchedState s e tid) :=
  regInv_update_one_pres (fun _ => rfl) (fun _ => rfl) (fun _ => rfl) hinv

theorem regInv_adminPatched {s : DBState} {data : OrganizationUpdate}
    {aid : Nat} (hinv : RegInv s) : RegInv (adminPatchedState s data aid) :=
  hinv

theorem regInv_renamed {s : DBState} {a b : String} (hinv : RegInv s) :
    RegInv (renamedState s a b) := by
  unfold renamedState
  split
  · exact hinv
  · exact hinv

theorem regInv_orgPatched {s : DBState} {data : OrganizationUpdate}
    {now tid : Nat} {old_cn new_cn : String} {current_org : OrgDoc}
    (hinv : RegInv s) (hnorm : NormName data.organization_name)
    (hmem : current_org ∈ s.organizations)
    (htid : current_org.oid = tid)
    (hold : old_cn = current_org.collection_name)
    (hnew : new_cn = generateCollectionName data.organization_name)
    (hother : ∀ o ∈ s.organizations, o.oid ≠ tid →
      o.name ≠ data.organization_name) :
    RegInv (orgPatchedState s data now tid old_cn new_cn) := by
  obtain ⟨hprops, hnames, hoids⟩ := hinv
  have hmap := @update_one_eq_map s.organizations tid
    (orgPatch data now old_cn new_cn) hoids
  have hnodup : (s.organizations.map (fun o => o.oid)).Nodup := hoids
  have hinj := List.inj_on_of_nodup_map hnodup
  unfold orgPatchedState
  rw [hmap]
  refine ⟨?_, ?_, ?_⟩
  · intro o ho
    simp only [List.mem_map] at ho
    obtain ⟨x, hx, rfl⟩ := ho
    by_cases hxt : x.oid = tid
    · have hxc : x = current_org := hinj hx hmem (by rw [hxt, htid])
      subst hxc
      rw [if_pos hxt]
      refine ⟨hnorm.1, hnorm.2, ?_, ?_⟩
      · show (if old_cn = new_cn then x.collection_name else new_cn) =
            generateCollectionName data.organization_name
        by_cases hcc : old_cn = new_cn
        · rw [if_pos hcc, ← hold, hcc, hnew]
        · rw [if_neg hcc, hnew]
      · show x.oid < _
        exact (hprops x hx).2.2.2
    · rw [if_neg hxt]
      exact hprops x hx
  · rw [List.map_map]
    have hptw : ∀ x ∈ s.organizations,
        ((fun o => o.name) ∘
          (fun o => if o.oid = tid then orgPatch data now old_cn new_cn o
                    else o)) x =
        (fun x => if x.oid = tid then data.organization_name else x.name) x := by
      intro x _
      by_cases hxt : x.oid = tid
      · simp only [Function.comp, if_pos hxt]
        rfl
      · simp only [Function.comp, if_neg hxt]
    rw [List.map_congr_left hptw]
    rw [List.pairwise_map]
    have hnl : s.organizations.Pairwise (fun a b => a.name ≠ b.name) :=
      List.pairwise_map.mp hnames
    have hol : s.organizations.Pairwise (fun a b => a.oid ≠ b.oid) :=
      List.pairwise_map.mp hoids
    refine (hnl.and hol).imp_of_mem ?_
    intro a b hma hmb hab
    by_cases ha : a.oid = tid <;> by_cases hb : b.oid = tid
    · exact absurd (ha.trans hb.symm) hab.2
    · rw [if_pos ha, if_neg hb]
      exact (hother b hmb hb).symm
    · rw [if_neg ha, if_pos hb]
      exact hother a hma ha
    · rw [if_neg ha, if_neg hb]
      exact hab.1
  · rw [map_field_map (fun x => by
      by_cases hxt : x.oid = tid
      · rw [if_pos hxt]
        rfl
      · rw [if_neg hxt])]
    exact hoids

theorem newOrgDoc_oid (s : DBState) (data : OrganizationCreate) :
    (newOrgDoc s data).oid = s.nextId := rfl

theorem regInv_createdState {s : DBState} {data : OrganizationCreate}
    (hinv : RegInv s) (hnorm : NormName data.organization_name)
    (hfresh : ∀ o ∈ s.organizations, o.name ≠ data.organization_name) :
    RegInv (createdState s data) := by
  obtain ⟨hprops, hnames, hoids⟩ := hinv
  have hnames' : ((s.organizations ++ [newOrgDoc s data]).map
      (fun o => o.name)).Pairwise (· ≠ ·) := by
    rw [List.map_append, List.pairwise_append]
    refine ⟨hnames, by simp, ?_⟩
    intro a ha b hb
    simp only [List.mem_map] at ha
    simp only [List.map_cons, List.map_nil, List.mem_singleton] at hb
    obtain ⟨x, hx, rfl⟩ := ha
    rw [hb]
    exact hfresh x hx
  have hoids' : ((s.organizations ++ [newOrgDoc s data]).map
      (fun o => o.oid)).Pairwise (· ≠ ·) := by
    rw [List.map_append, List.pairwise_append]
    refine ⟨hoids, by simp, ?_⟩
    intro a ha b hb
    simp only [List.mem_map] at ha
    simp only [List.map_cons, List.map_nil, List.mem_singleton] at hb
    obtain ⟨x, hx, rfl⟩ := ha
    rw [hb, newOrgDoc_oid]
    have := (hprops x hx).2.2.2
    omega
  have hprops' : ∀ o ∈ s.organizations ++ [newOrgDoc s data],
      pyLower o.name = o.name ∧ (∀ c ∈ o.name.data, c ≠ ' ') ∧
      o.collection_name = generateCollectionName o.name ∧
      o.oid < s.nextId + 2 := by
    intro o ho
    rcases List.mem_append.mp ho with hl | hr
    · obtain ⟨h1, h2, h3, h4⟩ := hprops o hl
      exact ⟨h1, h2, h3, by omega⟩
    · rw [List.mem_singleton.mp hr]
      exact ⟨hnorm.1, hnorm.2, rfl, by rw [newOrgDoc_oid]; omega⟩
  have hint : RegInv
      { organizations := s.organizations ++ [newOrgDoc s data],
        admin_users := s.admin_users ++ [newAdminDoc s data],
        collections :=
          s.collections ++ [generateCollectionName data.organization_name],
        nextId := s.nextId + 2, now := s.now } :=
    ⟨hprops', hnames', hoids'⟩
  exact regInv_update_one_pres
    (p := fun o => o.oid == s.nextId)
    (f := fun o => { o with admin_id := some (s.nextId + 1),
                            admin_email := some data.email })
    (fun _ => rfl) (fun _ => rfl) (fun _ => rfl) hint

theorem regInv_create_service {s : DBState} {data : OrganizationCreate}
    (hinv : RegInv s) (hnorm : NormName data.organization_name) :
    RegInv (create_organization s data).1 := by
  unfold create_organization
  cases hfo : s.organizations.find? (fun o => o.name == data.organization_name) with
  | some x => exact hinv
  | none =>
    cases hfa : s.admin_users.find? (fun a => a.email == data.email) with
    | some x => exact hinv
    | none =>
      have hfresh : ∀ o ∈ s.organizations,
          o.name ≠ data.organization_name := by
        intro o ho
        have := List.find?_eq_none.mp hfo o ho
        simpa using this
      exact regInv_createdState ⟨hinv.1, hinv.2.1, hinv.2.2⟩ hnorm hfresh

theorem regInv_updateApply {s : DBState} {data : OrganizationUpdate}
    {aid : Nat} {current_org : OrgDoc} {admin : AdminDoc}
    (hinv : RegInv s) (hnorm : NormName data.organization_name)
    (hmem : current_org ∈ s.organizations)
    (hother : ∀ o ∈ s.organizations, o.oid ≠ current_org.oid →
      o.name ≠ data.organization_name) :
    RegInv (updateApply s data aid current_org admin).1 := by
  have hro := renamedState_organizations s current_org.collection_name
    (generateCollectionName data.organization_name)
  have hs2 : RegInv (orgPatchedState
      (renamedState s current_org.collection_name
        (generateCollectionName data.organization_name))
      data s.now current_org.oid current_org.collection_name
      (generateCollectionName data.organization_name)) := by
    refine regInv_orgPatched (regInv_renamed hinv) hnorm ?_ rfl rfl rfl ?_
    · rw [hro]
      exact hmem
    · rw [hro]
      exact hother
  simp only [updateApply]
  cases hde : data.email with
  | some e =>
    dsimp only
    by_cases hq : (List.find? (fun a => a.email == e && !(a.aid == aid))
        (orgPatchedState (renamedState s current_org.collection_name
            (generateCollectionName data.organization_name)) data s.now
          current_org.oid current_org.collection_name
          (generateCollectionName data.organization_name)).admin_users).isSome = true
    · rw [if_pos hq]
      exact hs2
    · rw [if_neg hq, finishUpdate_state]
      exact regInv_emailPatched (regInv_adminPatched hs2)
  | none =>
    dsimp only
    rw [finishUpdate_state]
    exact regInv_adminPatched hs2

theorem regInv_update_service {s : DBState} {cn : String}
    {data : OrganizationUpdate} {aid : Nat}
    (hinv : RegInv s) (hnorm : NormName data.organization_name) :
    RegInv (update_organization s cn data aid).1 := by
  unfold update_organization
  cases hfo : s.organizations.find? (fun o => o.name == pyLower cn) with
  | none => exact hinv
  | some current_org =>
    have hmem := List.mem_of_find?_eq_some hfo
    have hcur : current_org.name = pyLower cn := by
      have := List.find?_some hfo
      simpa using this
    cases hfa : s.admin_users.find? (fun a => a.aid == aid) with
    | none => exact hinv
    | some admin =>
      dsimp only
      by_cases hauth : admin.organization_id ≠ current_org.oid
      · rw [if_pos hauth]
        exact hinv
      · rw [if_neg hauth]
        by_cases hcond : pyLower data.organization_name ≠ pyLower cn ∧
            (s.organizations.find?
              (fun o => o.name == pyLower data.organization_name)).isSome
        · rw [if_pos hcond]
          exact hinv
        · rw [if_neg hcond]
          have hother : ∀ o ∈ s.organizations, o.oid ≠ current_org.oid →
              o.name ≠ data.organization_name := by
            by_cases hA : pyLower data.organization_name ≠ pyLower cn
            · have hB : (s.organizations.find?
                  (fun o => o.name == pyLower data.organization_name)).isSome =
                    false := by
                by_contra hB'
                exact hcond ⟨hA, by simpa using hB'⟩
              have hnone : s.organizations.find?
                  (fun o => o.name == pyLower data.organization_name) = none :=
                Option.not_isSome_iff_eq_none.mp (by simp [hB])
              intro o ho _
              have := List.find?_eq_none.mp hnone o ho
              rw [hnorm.1] at this
              simpa using this
            · have hA' : pyLower data.organization_name = pyLower cn :=
                not_not.mp hA
              have hmcur : data.organization_name = current_org.name := by
                rw [hcur, ← hA', hnorm.1]
              have hnodupn : (s.organizations.map (fun o => o.name)).Nodup :=
                hinv.2.1
              have hinj := List.inj_on_of_nodup_map hnodupn
              intro o ho hne hcontra
              have : o = current_org := hinj ho hmem (by rw [hcontra, hmcur])
              exact hne (by rw [this])
          exact regInv_updateApply hinv hnorm hmem hother

theorem regInv_createEndpoint {s : DBState} {raw : OrganizationCreate}
    (hinv : RegInv s) : RegInv (createEndpoint s raw).1 := by
  unfold createEndpoint
  cases hv : validateOrganizationCreate raw with
  | none => exact hinv
  | some data =>
    have hnorm : NormName data.organization_name := by
      obtain ⟨h1, h2⟩ := validateCreate_some hv
      rw [h1]
      exact normName_of_grammar h2
    have h := regInv_create_service hinv hnorm
    rcases hc : create_organization s data with ⟨s', evs, r⟩
    rw [hc] at h
    dsimp only
    rw [hc]
    cases r <;> exact h

theorem regInv_updateEndpoint {s : DBState} {cn : String}
    {raw : OrganizationUpdate} {aid : Nat}
    (hinv : RegInv s) : RegInv (updateEndpoint s cn raw aid).1 := by
  unfold updateEndpoint
  by_cases hlen : nameLenOk cn
  · rw [if_neg (by simp [hlen])]
    cases hv : validateOrganizationUpdate raw with
    | none => exact hinv
    | some data =>
      have hnorm : NormName data.organization_name := by
        obtain ⟨h1, h2⟩ := validateUpdate_some hv
        rw [h1]
        exact normName_of_grammar h2
      have h := @regInv_update_service s cn data aid hinv hnorm
      rcases hc : update_organization s cn data aid with ⟨s', evs, r⟩
      rw [hc] at h
      dsimp only
      rw [hc]
      cases r <;> exact h
  · rw [if_pos (by simp [hlen])]
    exact hinv

theorem reachable_regInv {s : DBState} (h : Reachable s) : RegInv s := by
  induction h with
  | base => exact ⟨by simp [initialState], by simp [initialState],
      by simp [initialState]⟩
  | create s raw t hr ih => exact regInv_createEndpoint ih
  | update s cn raw aid t hr ih => exact regInv_updateEndpoint ih

theorem adminPatchedState_organizations (s : DBState)
    (data : OrganizationUpdate) (aid : Nat) :
    (adminPatchedState s data aid).organizations = s.organizations := rfl

theorem orgPatchedState_organizations (s : DBState)
    (data : OrganizationUpdate) (now tid : Nat) (a b : String) :
    (orgPatchedState s data now tid a b).organizations =
      update_one (fun o => o.oid == tid) (orgPatch data now a b)
        s.organizations := rfl

theorem emailPatchedState_organizations (s : DBState) (e : String)
    (tid : Nat) :
    (emailPatchedState s e tid).organizations =
      update_one (fun o => o.oid == tid)
        (fun o => { o with admin_email := some e }) s.organizations := rfl

theorem finishUpdate_ok {s : DBState} {evs : List DbEvent}
    {data : OrganizationUpdate} {admin : AdminDoc} {current_org : OrgDoc}
    {s' : DBState} {evs' : List DbEvent} {resp : OrgResponse}
    (h : finishUpdate s evs data admin current_org = (s', evs', .ok resp)) :
    s' = s ∧ evs' = evs := by
  unfold finishUpdate at h
  split at h
  · injection h with h1 h2
    injection h2 with h3 h4
    exact ⟨h1.symm, h3.symm⟩
  · injection h with h1 h2
    injection h2 with h3 h4
    exact absurd h4 (by simp)

theorem update_ok_characterization {s : DBState} {cn : String}
    {data : OrganizationUpdate} {aid : Nat} {s' : DBState}
    {evs : List DbEvent} {resp : OrgResponse}
    (h : update_organization s cn data aid = (s', evs, .ok resp)) :
    ∃ org admin,
      s.organizations.find? (fun o => o.name == pyLower cn) = some org ∧
      s.admin_users.find? (fun a => a.aid == aid) = some admin ∧
      admin.organization_id = org.oid ∧
      evs = (if org.collection_name =
                generateCollectionName data.organization_name then []
             else [.renameCollection org.collection_name
                     (generateCollectionName data.organization_name)]) ++
            [.patchOrg org.oid] ++
            (match data.email with
             | some _ => [.patchAdmin aid, .patchOrg org.oid]
             | none => [.patchAdmin aid]) ∧
      s'.organizations =
        (match data.email with
         | some e => update_one (fun (o : OrgDoc) => o.oid == org.oid)
             (fun (o : OrgDoc) => { o with admin_email := some e })
         | none => id)
          (update_one (fun o => o.oid == org.oid)
            (orgPatch data s.now org.collection_name
              (generateCollectionName data.organization_name))
            s.organizations) := by
  unfold update_organization at h
  rcases hfo : s.organizations.find? (fun o => o.name == pyLower cn) with
    _ | org
  · rw [hfo] at h
    dsimp only at h
    injection h with h1 h2
    injection h2 with h3 h4
    exact absurd h4 (by simp)
  rcases hfa : s.admin_users.find? (fun a => a.aid == aid) with _ | admin
  · rw [hfo, hfa] at h
    dsimp only at h
    injection h with h1 h2
    injection h2 with h3 h4
    exact absurd h4 (by simp)
  rw [hfo, hfa] at h
  dsimp only at h
  by_cases hauth : admin.organization_id ≠ org.oid
  · rw [if_pos hauth] at h
    injection h with h1 h2
    injection h2 with h3 h4
    exact absurd h4 (by simp)
  rw [if_neg hauth] at h
  by_cases hcond : pyLower data.organization_name ≠ pyLower cn ∧
      (s.organizations.find?
        (fun o => o.name == pyLower data.organization_name)).isSome = true
  · rw [if_pos hcond] at h
    injection h with h1 h2
    injection h2 with h3 h4
    exact absurd h4 (by simp)
  rw [if_neg hcond] at h
  refine ⟨org, admin, hfo, hfa, not_not.mp hauth, ?_⟩
  simp only [updateApply] at h
  rcases hde : data.email with _ | e
  · rw [hde] at h
    dsimp only at h
    obtain ⟨h1, h2⟩ := finishUpdate_ok h
    subst h1
    subst h2
    refine ⟨rfl, ?_⟩
    rw [adminPatchedState_organizations, orgPatchedState_organizations,
        renamedState_organizations]
    rfl
  · rw [hde] at h
    dsimp only at h
    split at h
    · injection h with h1 h2
      injection h2 with h3 h4
      exact absurd h4 (by simp)
    · obtain ⟨h1, h2⟩ := finishUpdate_ok h
      subst h1
      subst h2
      refine ⟨rfl, ?_⟩
      rw [emailPatchedState_organizations, adminPatchedState_organizations,
          orgPatchedState_organizations, renamedState_organizations]

theorem regInv_collections_pairwise {s : DBState} (hinv : RegInv s) :
    (s.organizations.map (fun o => o.collection_name)).Pairwise (· ≠ ·) := by
  obtain ⟨hprops, hnames, _⟩ := hinv
  rw [List.pairwise_map]
  refine (List.pairwise_map.mp hnames).imp_of_mem ?_
  intro a b hma hmb hne heq
  obtain ⟨ha1, ha2, ha3, -⟩ := hprops a hma
  obtain ⟨hb1, hb2, hb3, -⟩ := hprops b hmb
  exact hne (gen_inj ⟨ha1, ha2⟩ ⟨hb1, hb2⟩ (by rw [← ha3, ← hb3]; exact heq))

/-- C2: for every organization record in any registry state reachable by
Create and Update requests from the empty registry, the stored
`collection_name` equals the deterministic function
`_generate_collection_name` applied to the stored name (`"org_"` prefix
on the normalized lower-case name); this holds right after Create and is
re-established by every Update, renames included. -/
theorem C2_deterministic_collection_mapping :
    ∀ s : DBState, Reachable s →
      ∀ o ∈ s.organizations,
        o.collection_name = generateCollectionName o.name := by
  intro s hs o ho
  exact (((reachable_regInv hs).1) o ho).2.2.1

/-- C1: in every registry state reachable by Create and Update requests
from the empty registry, organization names are pairwise distinct and
collection names are pairwise distinct; moreover Create rejects a name
already present (returning `AlreadyExists` with no writes and no store
events), and Update rejects a new name that collides with another
existing organization (again with no writes). -/
theorem C1_uniqueness_invariant :
    (∀ s : DBState, Reachable s →
      (s.organizations.map (fun o => o.name)).Pairwise (· ≠ ·) ∧
      (s.organizations.map (fun o => o.collection_name)).Pairwise (· ≠ ·)) ∧
    (∀ (s : DBState) (data : OrganizationCreate) (x : OrgDoc),
      s.organizations.find? (fun o => o.name == data.organization_name) =
        some x →
      create_organization s data =
        (s, [], .error (.orgExists data.organization_name))) ∧
    (∀ (s : DBState) (cn : String) (data : OrganizationUpdate) (aid : Nat)
      (org : OrgDoc) (admin : AdminDoc) (x : OrgDoc),
      s.organizations.find? (fun o => o.name == pyLower cn) = some org →
      s.admin_users.find? (fun a => a.aid == aid) = some admin →
      admin.organization_id = org.oid →
      pyLower data.organization_name ≠ pyLower cn →
      s.organizations.find?
        (fun o => o.name == pyLower data.organization_name) = some x →
      update_organization s cn data aid =
        (s, [], .error (.orgExists data.organization_name))) := by
  refine ⟨?_, ?_, ?_⟩
  · intro s hs
    exact ⟨(reachable_regInv hs).2.1,
           regInv_collections_pairwise (reachable_regInv hs)⟩
  · intro s data x hfo
    unfold create_organization
    rw [hfo]
  · intro s cn data aid org admin x hfo hfa hauth hne hfx
    unfold update_organization
    rw [hfo, hfa]
    dsimp only
    rw [if_neg (fun hx => hx hauth), if_pos ⟨hne, by rw [hfx]; rfl⟩]

/-- C3: when the admin record named by the principal exists but belongs
to a different organization than the target, both Update and Delete fail
with the Unauthorized error, performing no store events and leaving the
state unchanged. -/
theorem C3_authorization_gate :
    ∀ (s : DBState) (cn : String) (data : OrganizationUpdate) (aid : Nat)
      (org : OrgDoc) (admin : AdminDoc),
      s.organizations.find? (fun o => o.name == pyLower cn) = some org →
      s.admin_users.find? (fun a => a.aid == aid) = some admin →
      admin.organization_id ≠ org.oid →
      update_organization s cn data aid = (s, [], .error .unauthorized) ∧
      delete_organization s cn aid = (s, [], .error .unauthorized) := by
  intro s cn data aid org admin hfo hfa hauth
  constructor
  · unfold update_organization
    rw [hfo, hfa]
    dsimp only
    rw [if_pos hauth]
  · unfold delete_organization
    rw [hfo, hfa]
    dsimp only
    rw [if_pos hauth]

/-- C8: when no organization matches the (lower-cased) target name, both
Update and Delete fail with NotFound — mapped to HTTP 404 by both routes
— regardless of the principal, with no store events and no state change;
the existence lookup is decided before the authorization check, so an
absent organization never yields Unauthorized. -/
theorem C8_notfound_before_authorization :
    ∀ (s : DBState) (cn : String) (data : OrganizationUpdate) (aid : Nat),
      s.organizations.find? (fun o => o.name == pyLower cn) = none →
      update_organization s cn data aid = (s, [], .error (.notFound cn)) ∧
      delete_organization s cn aid = (s, [], .error (.notFound cn)) ∧
      updateErrorStatus (.notFound cn) = 404 ∧
      deleteErrorStatus (.notFound cn) = 404 := by
  intro s cn data aid hfo
  refine ⟨?_, ?_, updateErrorStatus_notFound cn, deleteErrorStatus_notFound cn⟩
  · unfold update_organization
    rw [hfo]
  · unfold delete_organization
    rw [hfo]

/-- C10: when the target organization exists but the principal's
admin id matches no admin record, both Update and Delete fail with the
Unauthorized error — mapped to HTTP 403 (not 404) by both routes — with
no store events and no state change. -/
theorem C10_dangling_principal :
    ∀ (s : DBState) (cn : String) (data : OrganizationUpdate) (aid : Nat)
      (org : OrgDoc),
      s.organizations.find? (fun o => o.name == pyLower cn) = some org →
      s.admin_users.find? (fun a => a.aid == aid) = none →
      update_organization s cn data aid = (s, [], .error .unauthorized) ∧
      delete_organization s cn aid = (s, [], .error .unauthorized) ∧
      updateErrorStatus .unauthorized = 403 ∧
      deleteErrorStatus .unauthorized = 403 := by
  intro s cn data aid org hfo hfa
  refine ⟨?_, ?_, updateErrorStatus_unauthorized, deleteErrorStatus_unauthorized⟩
  · unfold update_organization
    rw [hfo, hfa]
  · unfold delete_organization
    rw [hfo, hfa]

/-- C6: deleting a name whose lower-cased form matches no organization
fails with NotFound (HTTP 404 via the route's message dispatch): it never
returns success, performs no store events, and leaves the registry
unchanged. -/
theorem C6_delete_nonexistent :
    ∀ (s : DBState) (nm : String) (aid : Nat),
      s.organizations.find? (fun o => o.name == pyLower nm) = none →
      delete_organization s nm aid = (s, [], .error (.notFound nm)) ∧
      deleteErrorStatus (.notFound nm) = 404 := by
  intro s nm aid hfo
  refine ⟨?_, deleteErrorStatus_notFound nm⟩
  unfold delete_organization
  rw [hfo]

/-- C5: decoding a freshly issued token before its expiry recovers
exactly the signed claims; decoding after the expiry timestamp fails
with HTTP 401; and decoding any token whose payload was altered while
keeping the original signature fails with HTTP 401 at any time. -/
theorem C5_token_roundtrip :
    ∀ (claims : List (String × String)) (ttl now t : Nat),
      0 < ttl →
      (t < now + ttl →
        decode_token (create_access_token claims (some ttl) now) t =
          .ok { claims := claims, exp := now + ttl }) ∧
      (now + ttl < t →
        decode_token (create_access_token claims (some ttl) now) t =
          .error 401) ∧
      (∀ t' : JwtToken,
        t'.sig = (create_access_token claims (some ttl) now).sig →
        t'.payload ≠ (create_access_token claims (some ttl) now).payload →
        ∀ u : Nat, decode_token t' u = .error 401) := by
  intro claims ttl now t httl
  refine ⟨?_, ?_, ?_⟩
  · intro hlt
    have hdec : jwt_decode (create_access_token claims (some ttl) now)
        secretKey t = some { claims := claims, exp := now + ttl } := by
      unfold jwt_decode create_access_token jwt_encode
      rw [if_pos ⟨rfl, show ¬(now + ttl < t) by omega⟩]
    unfold decode_token
    rw [hdec]
  · intro hgt
    have hdec : jwt_decode (create_access_token claims (some ttl) now)
        secretKey t = none := by
      unfold jwt_decode create_access_token jwt_encode
      rw [if_neg]
      intro hcl
      exact hcl.2 hgt
    unfold decode_token
    rw [hdec]
  · intro t' hsig hneq u
    have hdec : jwt_decode t' secretKey u = none := by
      unfold jwt_decode
      rw [if_neg]
      intro hcl
      have h2 := hcl.1.symm.trans hsig
      exact hneq (congrArg Prod.snd h2)
    unfold decode_token
    rw [hdec]

/-- C4: in every successful Update whose new collection identifier
differs from the stored one, the recorded store operations start with the
collection rename, strictly before the organization registry patch. -/
theorem C4_rename_before_registry_patch :
    ∀ (s : DBState) (cn : String) (data : OrganizationUpdate) (aid : Nat)
      (s' : DBState) (evs : List DbEvent) (resp : OrgResponse) (org : OrgDoc),
      s.organizations.find? (fun o => o.name == pyLower cn) = some org →
      update_organization s cn data aid = (s', evs, .ok resp) →
      generateCollectionName data.organization_name ≠ org.collection_name →
      evs.take 2 = [.renameCollection org.collection_name
                      (generateCollectionName data.organization_name),
                    .patchOrg org.oid] := by
  intro s cn data aid s' evs resp org hfo hsucc hne
  obtain ⟨org2, admin2, hfo2, -, -, hevs, -⟩ := update_ok_characterization hsucc
  rw [hfo] at hfo2
  have horg := Option.some.inj hfo2
  subst horg
  rw [hevs, if_neg (fun hx => hne hx.symm)]
  cases data.email <;> rfl

theorem get_map_eq {l : List OrgDoc} {g : OrgDoc → OrgDoc} (i : Nat)
    (hi : i < l.length) (hi' : i < (l.map g).length) :
    (l.map g).get ⟨i, hi'⟩ = g (l.get ⟨i, hi⟩) := by
  rw [List.get_eq_getElem, List.get_eq_getElem, List.getElem_map]

/-- C9: a successful Update changes the length of nothing: the registry
keeps the same records in the same order, every non-target record is
byte-for-byte unchanged, and the target record keeps its id, creation
timestamp, active flag and admin reference; its denormalized admin email
is also unchanged unless a new email was supplied. -/
theorem C9_update_frame :
    ∀ (s : DBState) (cn : String) (data : OrganizationUpdate) (aid : Nat)
      (s' : DBState) (evs : List DbEvent) (resp : OrgResponse) (org : OrgDoc),
      (s.organizations.map (fun o => o.oid)).Pairwise (· ≠ ·) →
      s.organizations.find? (fun o => o.name == pyLower cn) = some org →
      update_organization s cn data aid = (s', evs, .ok resp) →
      s'.organizations.length = s.organizations.length ∧
      ∀ (i : Nat) (hi : i < s.organizations.length)
        (hi' : i < s'.organizations.length),
        ((s'.organizations.get ⟨i, hi'⟩).oid =
          (s.organizations.get ⟨i, hi⟩).oid) ∧
        ((s'.organizations.get ⟨i, hi'⟩).created_at =
          (s.organizations.get ⟨i, hi⟩).created_at) ∧
        ((s'.organizations.get ⟨i, hi'⟩).is_active =
          (s.organizations.get ⟨i, hi⟩).is_active) ∧
        ((s'.organizations.get ⟨i, hi'⟩).admin_id =
          (s.organizations.get ⟨i, hi⟩).admin_id) ∧
        ((s.organizations.get ⟨i, hi⟩).oid ≠ org.oid →
          s'.organizations.get ⟨i, hi'⟩ = s.organizations.get ⟨i, hi⟩) ∧
        (data.email = none →
          (s'.organizations.get ⟨i, hi'⟩).admin_email =
            (s.organizations.get ⟨i, hi⟩).admin_email) := by
  intro s cn data aid s' evs resp org hoidp hfo hsucc
  obtain ⟨org2, admin2, hfo2, -, -, -, horgs⟩ := update_ok_characterization hsucc
  rw [hfo] at hfo2
  have horg := Option.some.inj hfo2
  subst horg
  rcases hde : data.email with _ | e
  · rw [hde] at horgs
    dsimp only at horgs
    rw [update_one_eq_map hoidp] at horgs
    simp only [id_eq] at horgs
    rw [horgs]
    refine ⟨List.length_map _ _, ?_⟩
    intro i hi hi'
    rw [get_map_eq i hi hi']
    by_cases hy : (s.organizations.get ⟨i, hi⟩).oid = org.oid
    · rw [if_pos hy]
      exact ⟨rfl, rfl, rfl, rfl, fun hne => absurd hy hne, fun _ => rfl⟩
    · rw [if_neg hy]
      exact ⟨rfl, rfl, rfl, rfl, fun _ => rfl, fun _ => rfl⟩
  · rw [hde] at horgs
    dsimp only at horgs
    rw [update_one_eq_map hoidp] at horgs
    have hg1oid : ∀ x : OrgDoc,
        ((fun o => if o.oid = org.oid then
            orgPatch data s.now org.collection_name
              (generateCollectionName data.organization_name) o
          else o) x).oid = x.oid := by
      intro x
      dsimp only
      by_cases hx : x.oid = org.oid
      · rw [if_pos hx]
        rfl
      · rw [if_neg hx]
    have hoidp2 : (((s.organizations.map
        (fun o => if o.oid = org.oid then
            orgPatch data s.now org.collection_name
              (generateCollectionName data.organization_name) o
          else o)).map (fun o => o.oid))).Pairwise (· ≠ ·) := by
      rw [map_field_map hg1oid]
      exact hoidp
    rw [update_one_eq_map hoidp2, List.map_map] at horgs
    rw [horgs]
    refine ⟨List.length_map _ _, ?_⟩
    intro i hi hi'
    rw [get_map_eq i hi hi']
    simp only [Function.comp]
    by_cases hy : (s.organizations.get ⟨i, hi⟩).oid = org.oid
    · rw [if_pos hy, if_pos (show (orgPatch data s.now org.collection_name
        (generateCollectionName data.organization_name)
        (s.organizations.get ⟨i, hi⟩)).oid = org.oid from hy)]
      exact ⟨rfl, rfl, rfl, rfl, fun hne => absurd hy hne,
             fun hc => absurd hc (by simp)⟩
    · rw [if_neg hy, if_neg (show ¬((s.organizations.get ⟨i, hi⟩).oid = org.oid)
        from hy)]
      exact ⟨rfl, rfl, rfl, rfl, fun _ => rfl, fun _ => rfl⟩

/-- C7 counterexample: the name `"abc\n"` violates the spec's identifier
grammar (it contains a newline), yet the Create endpoint accepts it —
Python's `$` matches before a trailing newline — creating an
organization instead of rejecting the request with 422. -/
theorem C7_counterexample :
    specIdentGrammar "abc\n" = false ∧
    orgNameGrammar "abc\n" = true ∧
    (createEndpoint initialState rawNewline).2.2 =
      Except.ok { id := 0, name := "abc\n", collection_name := "org_abc\n",
                  admin_email := "a@x.com", created_at := 0,
                  updated_at := none } ∧
    (createEndpoint initialState rawNewline).1.organizations.length = 1 := by
  exact ⟨by decide, by decide, rfl, rfl⟩

/-- C7 (amended): for every Create request whose organization name fails
the code's validation regex — which accepts exactly the letter-leading
alphanumeric-and-underscore identifiers, plus the same with one trailing
newline — the endpoint answers 422 and performs no store event and no
state change. -/
theorem C7_validation_atomicity :
    ∀ (s : DBState) (raw : OrganizationCreate),
      orgNameGrammar raw.organization_name = false →
      createEndpoint s raw = (s, [], Except.error 422) := by
  intro s raw h
  have hval : validateOrganizationCreate raw = none := by
    unfold validateOrganizationCreate
    rw [if_neg]
    simp [h]
  unfold createEndpoint
  rw [hval]

theorem C1_uniqueness_invariant_witness :
    ((stateAcmeBrix.organizations.map (fun o => o.name)).Pairwise (· ≠ ·) ∧
     (stateAcmeBrix.organizations.map
        (fun o => o.collection_name)).Pairwise (· ≠ ·)) ∧
    create_organization stateAcme
      { organization_name := "acme", email := "a@x.com",
        password := "Secret123" } =
      (stateAcme, [], .error (.orgExists "acme")) ∧
    update_organization stateAcmeBrix "acme" updBrix 1 =
      (stateAcmeBrix, [], .error (.orgExists "brix")) :=
  ⟨C1_uniqueness_invariant.1 stateAcmeBrix
      (Reachable.create stateAcme rawBrix 1
        (Reachable.create initialState rawAcme 0 Reachable.base)),
   C1_uniqueness_invariant.2.1 stateAcme
      { organization_name := "acme", email := "a@x.com",
        password := "Secret123" }
      { oid := 0, name := "acme", collection_name := "org_acme",
        admin_id := some 1, admin_email := some "a@x.com", created_at := 0,
        updated_at := none, is_active := true } rfl,
   C1_uniqueness_invariant.2.2 stateAcmeBrix "acme" updBrix 1
      { oid := 0, name := "acme", collection_name := "org_acme",
        admin_id := some 1, admin_email := some "a@x.com", created_at := 0,
        updated_at := none, is_active := true }
      { aid := 1, email := "a@x.com", password_hash := "bcrypt$Secret123",
        organization_id := 0, organization_name := "acme", role := "admin",
        created_at := 0, is_active := true }
      { oid := 2, name := "brix", collection_name := "org_brix",
        admin_id := some 3, admin_email := some "b@x.com", created_at := 1,
        updated_at := none, is_active := true }
      rfl rfl rfl (by decide) rfl⟩

theorem C2_deterministic_collection_mapping_witness :
    ({ oid := 0, name := "acme", collection_name := "org_acme",
       admin_id := some 1, admin_email := some "a@x.com", created_at := 0,
       updated_at := none, is_active := true } : OrgDoc).collection_name =
      generateCollectionName
        ({ oid := 0, name := "acme", collection_name := "org_acme",
           admin_id := some 1, admin_email := some "a@x.com",
           created_at := 0, updated_at := none,
           is_active := true } : OrgDoc).name :=
  C2_deterministic_collection_mapping stateAcme
    (Reachable.create initialState rawAcme 0 Reachable.base)
    { oid := 0, name := "acme", collection_name := "org_acme",
      admin_id := some 1, admin_email := some "a@x.com", created_at := 0,
      updated_at := none, is_active := true } (by decide)

theorem C3_authorization_gate_witness :
    update_organization stateAcmeBrix "acme" updBrix 3 =
      (stateAcmeBrix, [], .error .unauthorized) ∧
    delete_organization stateAcmeBrix "acme" 3 =
      (stateAcmeBrix, [], .error .unauthorized) :=
  C3_authorization_gate stateAcmeBrix "acme" updBrix 3
    { oid := 0, name := "acme", collection_name := "org_acme",
      admin_id := some 1, admin_email := some "a@x.com", created_at := 0,
      updated_at := none, is_active := true }
    { aid := 3, email := "b@x.com", password_hash := "bcrypt$Secret123",
      organization_id := 2, organization_name := "brix", role := "admin",
      created_at := 1, is_active := true }
    rfl rfl (by decide)

theorem C4_rename_before_registry_patch_witness :
    (update_organization stateAcme "acme" updBrix 1).2.1.take 2 =
      [DbEvent.renameCollection "org_acme" "org_brix", DbEvent.patchOrg 0] :=
  C4_rename_before_registry_patch stateAcme "acme" updBrix 1
    (update_organization stateAcme "acme" updBrix 1).1
    (update_organization stateAcme "acme" updBrix 1).2.1
    { id := 0, name := "brix", collection_name := "org_brix",
      admin_email := "a@x.com", created_at := 0, updated_at := some 0 }
    { oid := 0, name := "acme", collection_name := "org_acme",
      admin_id := some 1, admin_email := some "a@x.com", created_at := 0,
      updated_at := none, is_active := true }
    rfl rfl (by decide)

theorem C5_token_roundtrip_witness :
    decode_token (create_access_token [("sub", "1")] (some 5) 0) 3 =
      .ok { claims := [("sub", "1")], exp := 5 } ∧
    decode_token (create_access_token [("sub", "1")] (some 5) 0) 7 =
      .error 401 ∧
    decode_token
      { payload := { claims := [], exp := 5 },
        sig := (create_access_token [("sub", "1")] (some 5) 0).sig } 3 =
      .error 401 :=
  ⟨(C5_token_roundtrip [("sub", "1")] 5 0 3 (by decide)).1 (by decide),
   (C5_token_roundtrip [("sub", "1")] 5 0 7 (by decide)).2.1 (by decide),
   (C5_token_roundtrip [("sub", "1")] 5 0 3 (by decide)).2.2
     { payload := { claims := [], exp := 5 },
       sig := (create_access_token [("sub", "1")] (some 5) 0).sig }
     rfl (by decide) 3⟩

theorem C6_delete_nonexistent_witness :
    delete_organization initialState "nosuchorg" 0 =
      (initialState, [], .error (.notFound "nosuchorg")) ∧
    deleteErrorStatus (.notFound "nosuchorg") = 404 :=
  C6_delete_nonexistent initialState "nosuchorg" 0 rfl

theorem C7_validation_atomicity_witness :
    orgNameGrammar "123bad" = false ∧
    createEndpoint initialState rawBadName =
      (initialState, [], Except.error 422) :=
  ⟨by decide, C7_validation_atomicity initialState rawBadName (by decide)⟩

theorem C8_notfound_before_authorization_witness :
    update_organization stateAcme "ghost" updBrix 99 =
      (stateAcme, [], .error (.notFound "ghost")) ∧
    delete_organization stateAcme "ghost" 99 =
      (stateAcme, [], .error (.notFound "ghost")) ∧
    updateErrorStatus (.notFound "ghost") = 404 ∧
    deleteErrorStatus (.notFound "ghost") = 404 :=
  C8_notfound_before_authorization stateAcme "ghost" updBrix 99 rfl

theorem C9_update_frame_witness :
    (update_organization stateAcme "acme" updBrix 1).1.organizations.length =
      stateAcme.organizations.length ∧
    ((update_organization stateAcme "acme" updBrix 1).1.organizations.get
        ⟨0, by decide⟩).oid =
      (stateAcme.organizations.get ⟨0, by decide⟩).oid ∧
    ((update_organization stateAcme "acme" updBrix 1).1.organizations.get
        ⟨0, by decide⟩).created_at =
      (stateAcme.organizations.get ⟨0, by decide⟩).created_at ∧
    ((update_organization stateAcme "acme" updBrix 1).1.organizations.get
        ⟨0, by decide⟩).admin_email =
      (stateAcme.organizations.get ⟨0, by decide⟩).admin_email := by
  have h := C9_update_frame stateAcme "acme" updBrix 1
    (update_organization stateAcme "acme" updBrix 1).1
    (update_organization stateAcme "acme" updBrix 1).2.1
    { id := 0, name := "brix", collection_name := "org_brix",
      admin_email := "a@x.com", created_at := 0, updated_at := some 0 }
    { oid := 0, name := "acme", collection_name := "org_acme",
      admin_id := some 1, admin_email := some "a@x.com", created_at := 0,
      updated_at := none, is_active := true }
    (by decide) rfl rfl
  obtain ⟨hlen, hf⟩ := h
  have h0 := hf 0 (by decide) (by decide)
  exact ⟨hlen, h0.1, h0.2.1, h0.2.2.2.2.2 rfl⟩

theorem C10_dangling_principal_witness :
    update_organization stateAcme "acme" updBrix 99 =
      (stateAcme, [], .error .unauthorized) ∧
    delete_organization stateAcme "acme" 99 =
      (stateAcme, [], .error .unauthorized) ∧
    updateErrorStatus .unauthorized = 403 ∧
    deleteErrorStatus .unauthorized = 403 :=
  C10_dangling_principal stateAcme "acme" updBrix 99
    { oid := 0, name := "acme", collection_name := "org_acme",
      admin_id := some 1, admin_email := some "a@x.com", created_at := 0,
      updated_at := none, is_active := true }
    rfl rfl
